import Mathlib

/-!
Verification development for the WebShop "dream" RL environments
(`web_agent_site/envs/web_agent_dream_env_dom.py` and
`web_agent_site/envs/web_agent_dream_env.py`).

The Python code is glue around external services (a Flask app, a Selenium
browser, BeautifulSoup, the Python stdlib).  We embed the repository's own
logic faithfully; the external services are modelled as oracle function
parameters (`fetch`, `parse`, `jloads`, browser click behaviour), and the
relevant Python stdlib routines (`str.split`, `urllib.parse.unquote`,
`urllib.parse.quote`, `html.unescape`, `re.findall` for the two concrete
patterns used) are given executable models.
-/

namespace WebShop

/-- Python exceptions that the embedded code can raise. -/
inductive PyExc where
  | attributeError
  | indexError
  | valueError
  | exception
  | elementNotInteractable
  | otherBrowserExc
  deriving DecidableEq, Repr

/-- Python list indexing `xs[i]` for `int` indices: non-negative indices
index from the front, negative indices wrap from the back, and indices out
of the range `[-len, len)` raise `IndexError` (modelled as `none`). -/
def pyIndex {α : Type} (xs : List α) (i : Int) : Option α :=
  if 0 ≤ i then xs.get? i.toNat
  else if -(xs.length : Int) ≤ i then xs.get? ((xs.length : Int) + i).toNat
  else none

/-- Python `str.split(sep)` for a one-character separator, on the character
list of the string: splitting the empty string yields `[[]]`, and `n`
separator occurrences yield `n+1` (possibly empty) fields. -/
def splitChar (sep : Char) : List Char → List (List Char)
  | [] => [[]]
  | c :: rest =>
    if c = sep then [] :: splitChar sep rest
    else
      match splitChar sep rest with
      | [] => [[c]]
      | p :: ps => (c :: p) :: ps

/-- Python `sep.join(parts)` for a one-character separator. -/
def joinChar (sep : Char) : List (List Char) → List Char
  | [] => []
  | [p] => p
  | p :: ps => p ++ sep :: joinChar sep ps

/-- The per-segment transformation inside `WebAgentDreamDOMEnv.clean_url`:
`p[:10] + '...' + p[-10:] if len(p) > 20 else p`. -/
def shortenSegment (p : List Char) : List Char :=
  if p.length > 20 then p.take 10 ++ ('.' :: '.' :: '.' :: []) ++ p.drop (p.length - 10)
  else p

/-- `WebAgentDreamDOMEnv.clean_url`: split the URL on `'/'`, abbreviate every
long segment, and re-join with `'/'`. -/
def clean_url (url : String) : String :=
  String.mk (joinChar '/' ((splitChar '/' url.data).map shortenSegment))

/-- `splitChar` never returns the empty list of fields. -/
theorem splitChar_ne_nil (sep : Char) (s : List Char) : splitChar sep s ≠ [] := by
  induction s with
  | nil => simp [splitChar]
  | cons c rest ih =>
    simp only [splitChar]
    by_cases h : c = sep
    · simp [h]
    · simp only [if_neg h]
      cases hs : splitChar sep rest with
      | nil => simp
      | cons p ps => simp

/-- No field returned by `splitChar` contains the separator. -/
theorem splitChar_not_mem (sep : Char) (s : List Char) :
    ∀ p ∈ splitChar sep s, sep ∉ p := by
  induction s with
  | nil => intro p hp; simp [splitChar] at hp; simp [hp]
  | cons c rest ih =>
    intro p hp
    simp only [splitChar] at hp
    by_cases h : c = sep
    · simp only [if_pos h, List.mem_cons] at hp
      rcases hp with hp | hp
      · simp [hp]
      · exact ih p hp
    · simp only [if_neg h] at hp
      cases hs : splitChar sep rest with
      | nil => exact absurd hs (splitChar_ne_nil sep rest)
      | cons q qs =>
        rw [hs] at hp
        simp only [List.mem_cons] at hp
        rcases hp with hp | hp
        · subst hp
          intro hmem
          rcases List.mem_cons.mp hmem with hc | hq
          · exact h hc.symm
          · exact ih q (hs ▸ List.mem_cons_self q qs) hq
        · exact ih p (hs ▸ List.mem_cons_of_mem q hp)

/-- Splitting a separator-free list returns that list as the only field. -/
theorem splitChar_of_not_mem (sep : Char) (p : List Char) (h : sep ∉ p) :
    splitChar sep p = [p] := by
  induction p with
  | nil => simp [splitChar]
  | cons c rest ih =>
    simp only [List.mem_cons, not_or] at h
    have hrest := ih h.2
    simp only [splitChar]
    rw [if_neg (fun hc => h.1 hc.symm), hrest]

/-- Splitting `p ++ sep :: t` with `sep ∉ p` yields `p` followed by the
fields of `t`. -/
theorem splitChar_append (sep : Char) (p t : List Char) (h : sep ∉ p) :
    splitChar sep (p ++ sep :: t) = p :: splitChar sep t := by
  induction p with
  | nil => simp [splitChar]
  | cons c rest ih =>
    simp only [List.mem_cons, not_or] at h
    have hrest := ih h.2
    simp only [List.cons_append, splitChar, List.append_eq]
    rw [if_neg (fun hc => h.1 hc.symm), hrest]

/-- Joining separator-free fields and re-splitting recovers the fields. -/
theorem splitChar_joinChar (sep : Char) (parts : List (List Char))
    (hne : parts ≠ []) (hfree : ∀ p ∈ parts, sep ∉ p) :
    splitChar sep (joinChar sep parts) = parts := by
  induction parts with
  | nil => exact absurd rfl hne
  | cons p ps ih =>
    cases ps with
    | nil =>
      simp only [joinChar]
      exact splitChar_of_not_mem sep p (hfree p (List.mem_cons_self p []))
    | cons q qs =>
      have hjoin : joinChar sep (p :: q :: qs) = p ++ sep :: joinChar sep (q :: qs) := rfl
      rw [hjoin, splitChar_append sep p _ (hfree p (List.mem_cons_self p (q :: qs)))]
      rw [ih (by simp) (fun r hr => hfree r (List.mem_cons_of_mem p hr))]

/-- `shortenSegment` introduces no separator character that was not already
in the segment. -/
theorem shortenSegment_not_mem (p : List Char) (h : '/' ∉ p) :
    '/' ∉ shortenSegment p := by
  unfold shortenSegment
  by_cases hl : p.length > 20
  · simp only [if_pos hl]
    intro hmem
    rcases List.mem_append.mp hmem with hmem | hmem
    · rcases List.mem_append.mp hmem with hmem | hmem
      · exact h (List.mem_of_mem_take hmem)
      · simp at hmem
    · exact h (List.mem_of_mem_drop hmem)
  · simp only [if_neg hl]; exact h

/-- C10: `clean_url` preserves the number and order of `'/'`-separated
segments; every segment of length at most 20 appears unchanged, and every
segment of length greater than 20 is replaced by its first 10 characters,
`'...'`, and its last 10 characters, for a replacement of length exactly 23. -/
theorem clean_url_segment_spec (url : String) :
    splitChar '/' (clean_url url).data = (splitChar '/' url.data).map shortenSegment ∧
    ∀ p ∈ splitChar '/' url.data,
      (p.length ≤ 20 → shortenSegment p = p) ∧
      (20 < p.length →
        shortenSegment p = p.take 10 ++ ('.' :: '.' :: '.' :: []) ++ p.drop (p.length - 10) ∧
        (shortenSegment p).length = 23) := by
  constructor
  · show splitChar '/' (joinChar '/' ((splitChar '/' url.data).map shortenSegment)) = _
    apply splitChar_joinChar
    · intro hmap
      exact splitChar_ne_nil '/' url.data (List.map_eq_nil_iff.mp hmap)
    · intro q hq
      rcases List.mem_map.mp hq with ⟨p, hp, rfl⟩
      exact shortenSegment_not_mem p (splitChar_not_mem '/' url.data p hp)
  · intro p _
    constructor
    · intro hle
      unfold shortenSegment
      rw [if_neg (by omega)]
    · intro hgt
      refine ⟨by unfold shortenSegment; rw [if_pos hgt], ?_⟩
      unfold shortenSegment
      rw [if_pos hgt]
      simp only [List.length_append, List.length_take, List.length_drop, List.length_cons,
        List.length_nil]
      omega

/-- Witness for `clean_url_segment_spec` at the concrete URL
`"ab/abcdefghijklmnopqrstuvwxyz"`. -/
theorem clean_url_segment_spec_witness :
    shortenSegment "ab".data = "ab".data ∧
    (shortenSegment "abcdefghijklmnopqrstuvwxyz".data).length = 23 := by
  have h := clean_url_segment_spec "ab/abcdefghijklmnopqrstuvwxyz"
  exact ⟨(h.2 "ab".data (by decide)).1 (by decide),
    ((h.2 "abcdefghijklmnopqrstuvwxyz".data (by decide)).2 (by decide)).2⟩

/-! ### Models of the Python stdlib string routines used by the DOM env -/

/-- Value of a hexadecimal digit, as accepted by percent-decoding. -/
def hexVal (c : Char) : Option Nat :=
  if '0' ≤ c ∧ c ≤ '9' then some (c.toNat - '0'.toNat)
  else if 'a' ≤ c ∧ c ≤ 'f' then some (c.toNat - 'a'.toNat + 10)
  else if 'A' ≤ c ∧ c ≤ 'F' then some (c.toNat - 'A'.toNat + 10)
  else none

/-- Model of `urllib.parse.unquote` at byte granularity: every valid `%XX`
escape becomes the character with code `XX`; invalid escapes are passed
through unchanged.  (The stdlib additionally UTF-8-decodes runs of decoded
bytes ≥ 0x80; the URLs handled by this repository are ASCII and none of the
claims depend on that refinement.) -/
def unquoteAux : Nat → List Char → List Char
  | 0, s => s
  | _, [] => []
  | fuel + 1, c :: rest =>
    if c = '%' then
      match rest with
      | h1 :: h2 :: rest2 =>
        match hexVal h1, hexVal h2 with
        | some v1, some v2 => Char.ofNat (16 * v1 + v2) :: unquoteAux fuel rest2
        | _, _ => c :: unquoteAux fuel rest
      | _ => c :: unquoteAux fuel rest
    else c :: unquoteAux fuel rest

/-- Model of `urllib.parse.unquote` (entry point; each produced character
costs one unit of fuel, so fuel equal to the input length is enough). -/
def unquote (s : List Char) : List Char :=
  unquoteAux s.length s

/-- Read a decimal character reference up to `';'`; the `Bool` records
whether at least one digit has been consumed. -/
def readDecimalRef : List Char → Nat → Bool → Option (Char × List Char)
  | [], _, _ => none
  | c :: rest, acc, started =>
    if c = ';' then
      if started then some (Char.ofNat acc, rest) else none
    else if c.isDigit then readDecimalRef rest (10 * acc + (c.toNat - '0'.toNat)) true
    else none

/-- Read one HTML character entity after a `'&'`: the common named entities
and decimal numeric references (a modelled subset of the `html.unescape`
table); anything else is not an entity and is left intact. -/
def readEntity : List Char → Option (Char × List Char)
  | 'a' :: 'm' :: 'p' :: ';' :: rest => some ('&', rest)
  | 'l' :: 't' :: ';' :: rest => some ('<', rest)
  | 'g' :: 't' :: ';' :: rest => some ('>', rest)
  | 'q' :: 'u' :: 'o' :: 't' :: ';' :: rest => some ('"', rest)
  | 'a' :: 'p' :: 'o' :: 's' :: ';' :: rest => some (Char.ofNat 39, rest)
  | '#' :: rest => readDecimalRef rest 0 false
  | _ => none

/-- Fuelled worker for `htmlUnescape`; each produced character costs one
unit of fuel, so fuel equal to the input length is always enough. -/
def htmlUnescapeAux : Nat → List Char → List Char
  | 0, s => s
  | _, [] => []
  | fuel + 1, c :: rest =>
    if c = '&' then
      match readEntity rest with
      | some (ch, rest2) => ch :: htmlUnescapeAux fuel rest2
      | none => c :: htmlUnescapeAux fuel rest
    else c :: htmlUnescapeAux fuel rest

/-- Model of `html.unescape`. -/
def htmlUnescape (s : List Char) : List Char :=
  htmlUnescapeAux s.length s

/-- UTF-8 byte sequence of a code point (model of `str.encode('utf-8')`,
used by `urllib.parse.quote` on non-safe characters). -/
def utf8Bytes (n : Nat) : List Nat :=
  if n < 128 then [n]
  else if n < 2048 then [192 + n / 64, 128 + n % 64]
  else if n < 65536 then [224 + n / 4096, 128 + n / 64 % 64, 128 + n % 64]
  else [240 + n / 262144, 128 + n / 4096 % 64, 128 + n / 64 % 64, 128 + n % 64]

/-- Upper-case hexadecimal digit, as produced by `urllib.parse.quote`. -/
def hexDigitUpper (n : Nat) : Char :=
  if n < 10 then Char.ofNat ('0'.toNat + n) else Char.ofNat ('A'.toNat + n - 10)

/-- Characters `urllib.parse.quote` leaves unescaped with its default
`safe='/'`: ASCII letters, digits, `_.-~`, and `'/'`. -/
def quoteSafe (c : Char) : Bool :=
  c.isAlphanum || c = '_' || c = '.' || c = '-' || c = '~' || c = '/'

/-- Percent-encoding of one character under `urllib.parse.quote`. -/
def quoteChar (c : Char) : List Char :=
  if quoteSafe c then [c]
  else ((utf8Bytes c.toNat).map
    (fun b => '%' :: hexDigitUpper (b / 16) :: hexDigitUpper (b % 16) :: [])).flatten

/-- Model of `urllib.parse.quote` with the default `safe='/'`. -/
def quote (s : List Char) : List Char :=
  (s.map quoteChar).flatten

/-! ### `re.findall` for the patterns of `get_available_click_actions` -/

/-- One match attempt of the regex `pre(.*?)"` anchored at the head of `s`:
if the literal `pre` is a prefix and a closing `'"'` follows with no newline
before it, return the (shortest, per the non-greedy `.*?`) capture together
with the remainder after the closing quote. -/
def captureAt (pre s : List Char) : Option (List Char × List Char) :=
  if pre.isPrefixOf s then
    let t := s.drop pre.length
    match t.dropWhile (fun c => !(c = '"') && !(c = '\n')) with
    | '"' :: rest2 => some (t.takeWhile (fun c => !(c = '"') && !(c = '\n')), rest2)
    | _ => none
  else none

/-- Fuelled scan of `re.findall` for the pattern `pre(.*?)"`: at each
position try a match; on success record the capture and resume after the
match, otherwise advance one character.  Every step consumes at least one
character, so fuel equal to the input length is always enough. -/
def reFindAux (pre : List Char) : Nat → List Char → List (List Char)
  | 0, _ => []
  | _, [] => []
  | fuel + 1, c :: rest =>
    match captureAt pre (c :: rest) with
    | some (cap, rest2) => cap :: reFindAux pre fuel rest2
    | none => reFindAux pre fuel rest

/-- `re.findall(pre + '(.*?)"', s)`, capture list in scan order. -/
def reFindallCapture (pre s : List Char) : List (List Char) :=
  reFindAux pre s.length s

/-- Python `url.startswith('/')`. -/
def startsWithSlash : List Char → Bool
  | c :: _ => c == '/'
  | [] => false

/-- The literal part of the first pattern, `action="(.*?)"`. -/
def actionPattern : List Char := "action=\"".data

/-- The literal part of the second pattern,
`class="product-link" href="(.*?)"`. -/
def productLinkPattern : List Char := "class=\"product-link\" href=\"".data

/-- `WebAgentDreamDOMEnv.get_available_click_actions`, line by line: collect
the captures of the two patterns over the raw page source, keep those that
start with `'/'`, then unquote, HTML-unescape, and re-quote each. -/
def get_available_click_actions (page_source : String) : List String :=
  let urls := reFindallCapture actionPattern page_source.data
  let urls := urls ++ reFindallCapture productLinkPattern page_source.data
  let urls := urls.filter startsWithSlash
  let urls := urls.map unquote
  let urls := urls.map htmlUnescape
  (urls.map quote).map String.mk

/-- Percent-unquoting keeps a leading `'/'`. -/
theorem unquote_cons_slash (r : List Char) : unquote ('/' :: r) = '/' :: unquote r := by
  simp [unquote, unquoteAux, List.length_cons]

/-- HTML-unescaping keeps a leading `'/'`. -/
theorem htmlUnescape_cons_slash (r : List Char) :
    htmlUnescape ('/' :: r) = '/' :: htmlUnescape r := by
  simp [htmlUnescape, htmlUnescapeAux, List.length_cons]

/-- Percent-quoting keeps a leading `'/'` (`'/'` is in the safe set). -/
theorem quote_cons_slash (r : List Char) : quote ('/' :: r) = '/' :: quote r := by
  simp [quote, quoteChar, quoteSafe]

/-- C2: `get_available_click_actions` returns exactly the captures of the
patterns `action="(.*?)"` and `class="product-link" href="(.*?)"` that begin
with `'/'`, in that order, each capture percent-unquoted, HTML-unescaped,
and then percent-quoted; every element of the returned list begins with
`'/'`.  (This list is the discrete action set that `step` indexes.) -/
theorem get_available_click_actions_spec (page_source : String) :
    get_available_click_actions page_source =
      ((reFindallCapture actionPattern page_source.data ++
        reFindallCapture productLinkPattern page_source.data).filter startsWithSlash).map
        (fun u => String.mk (quote (htmlUnescape (unquote u)))) ∧
    ∀ u ∈ get_available_click_actions page_source, startsWithSlash u.data = true := by
  have hmap : get_available_click_actions page_source =
      ((reFindallCapture actionPattern page_source.data ++
        reFindallCapture productLinkPattern page_source.data).filter startsWithSlash).map
        (fun u => String.mk (quote (htmlUnescape (unquote u)))) := by
    simp only [get_available_click_actions, List.map_map]
    rfl
  refine ⟨hmap, ?_⟩
  intro u hu
  rw [hmap] at hu
  rcases List.mem_map.mp hu with ⟨v, hv, rfl⟩
  have hslash : startsWithSlash v = true := List.of_mem_filter hv
  cases v with
  | nil => simp [startsWithSlash] at hslash
  | cons c t =>
    have hc : c = '/' := by simpa [startsWithSlash] using hslash
    subst hc
    show startsWithSlash (quote (htmlUnescape (unquote ('/' :: t)))) = true
    rw [unquote_cons_slash, htmlUnescape_cons_slash, quote_cons_slash]
    simp [startsWithSlash]

/-- Witness for `get_available_click_actions_spec`: on the concrete page
`<form action="/a b"></form>` the single extracted URL is `/a%20b` (the
space is re-quoted), and it begins with `'/'`. -/
theorem get_available_click_actions_spec_witness :
    startsWithSlash (String.data "/a%20b") = true :=
  (get_available_click_actions_spec "<form action=\"/a b\"></form>").2 "/a%20b" (by decide)

/-! ### Parsed HTML and the BeautifulSoup accessors the code performs

`BeautifulSoup(html, 'html.parser')` itself is an external library; it is
modelled as an oracle `parse : String → Node` producing a parsed tree, and
the accessors the repository actually performs (`find(id=...)`, the `.h4`
tag shortcut, `.text`) are embedded below. -/

/-- A parsed HTML node: an element with tag name, attributes, and children,
or a text node. -/
inductive Node where
  | elem (tag : String) (attrs : List (String × String)) (children : List Node)
  | text (s : String)
  deriving Repr

mutual
/-- BeautifulSoup `.text` / `.get_text()`: all text descendants,
concatenated in document order. -/
def nodeText : Node → String
  | .text s => s
  | .elem _ _ cs => nodeTextList cs
/-- `.text` over a child list. -/
def nodeTextList : List Node → String
  | [] => ""
  | n :: ns => nodeText n ++ nodeTextList ns
end

mutual
/-- BeautifulSoup `find(id=v)`: the first element in document (pre-order)
order whose `id` attribute equals `v`, or `None`. -/
def findById (v : String) : Node → Option Node
  | .text _ => none
  | .elem tag attrs cs =>
    if attrs.lookup "id" = some v then some (.elem tag attrs cs)
    else findByIdList v cs
/-- `find(id=v)` over a child list. -/
def findByIdList (v : String) : List Node → Option Node
  | [] => none
  | n :: ns =>
    match findById v n with
    | some r => some r
    | none => findByIdList v ns
end

mutual
/-- BeautifulSoup tag shortcut (`element.h4`): the first descendant element
with the given tag name, in document (pre-order) order, or `None`. -/
def findByTagNode (t : String) : Node → Option Node
  | .text _ => none
  | .elem tag attrs cs =>
    if tag = t then some (.elem tag attrs cs)
    else findByTagList t cs
/-- Tag search over a child list. -/
def findByTagList (t : String) : List Node → Option Node
  | [] => none
  | n :: ns =>
    match findByTagNode t n with
    | some r => some r
    | none => findByTagList t ns
end

/-- `element.h4` searches the element's descendants (not the element
itself) for the first `h4` tag. -/
def childTag (t : String) : Node → Option Node
  | .text _ => none
  | .elem _ _ cs => findByTagList t cs

/-- A JSON value, as decoded by `json.loads`.  `json.loads` itself is an
external routine and is passed in as an oracle `jloads : String → Option Json`
(`none` models a raised `ValueError`). -/
inductive Json where
  | null
  | bool (b : Bool)
  | num (n : Int)
  | str (s : String)
  | arr (xs : List Json)
  | obj (kvs : List (String × Json))
  deriving Repr

/-- `WebAgentDreamDOMEnv.get_instruction_text`:
`self._parse_html(self.page_source).find(id='instruction-text').h4.text`.
A `None` result of `find` (or of `.h4`) makes the following attribute
access raise `AttributeError`; nothing catches it here. -/
def get_instruction_text (parse : String → Node) (page_source : String) :
    Except PyExc String :=
  match findById "instruction-text" (parse page_source) with
  | none => .error .attributeError
  | some e =>
    match childTag "h4" e with
    | none => .error .attributeError
    | some h => .ok (nodeText h)

/-- `WebAgentDreamDOMEnv.get_best_products`:
`json.loads(soup.find(id='best-products').h4.text)`; `find` returning
`None` raises `AttributeError`, and a failed `json.loads` raises
`ValueError`. -/
def get_best_products (parse : String → Node) (jloads : String → Option Json)
    (page_source : String) : Except PyExc Json :=
  match findById "best-products" (parse page_source) with
  | none => .error .attributeError
  | some e =>
    match childTag "h4" e with
    | none => .error .attributeError
    | some h =>
      match jloads (nodeText h) with
      | none => .error .valueError
      | some j => .ok j

/-! ### The `WebAgentDreamDOMEnv` instance state, `step` and `reset` -/

/-- Constructor-time configuration of `WebAgentDreamDOMEnv` relevant to
`add_query_parameters` (`return_n`, `num_random`, `shuffle_products`). -/
structure DOMConfig where
  return_n : Nat
  num_random : Nat
  shuffle_products : Bool

/-- The mutable per-instance state of `WebAgentDreamDOMEnv`: the raw page
source, `_cur_state` (the current relative URL), the `first_step` flag, and
the `instruction_text` / `best_products` captured during `reset`, plus the
session bookkeeping. -/
structure DOMState where
  page_source : String
  cur_state : String
  first_step : Bool
  instruction_text : String
  best_products : Json
  session : String
  seed : Option Int

/-- The observation dictionary built by the `state` property: the keys
`html`, `instruction_text` and `best_products`. -/
structure Obs where
  html : String
  instruction_text : String
  best_products : Json

/-- The `state` property: package the current page source together with the
stored `instruction_text` and `best_products`. -/
def stateObs (s : DOMState) : Obs :=
  { html := s.page_source
    instruction_text := s.instruction_text
    best_products := s.best_products }

/-- The 4-tuple returned by `step`: `(observation, reward, done, info)`. -/
structure StepOut where
  obs : Obs
  reward : Float
  done : Bool
  info : Option Unit

/-- `WebAgentDreamDOMEnv.step`: clear `first_step`, compute the available
click URLs; an action with `action >= len(urls)` performs nothing, any other
action indexes `urls` with Python `int` indexing (negative indices wrap; an
index below `-len(urls)` raises `IndexError`) and fetches the selected URL
through the test client (`fetch` oracle), updating `page_source` and
`_cur_state`.  Returns `(state, 0.0, False, None)`. -/
def domStep (fetch : String → String) (s : DOMState) (action : Int) :
    Except PyExc (DOMState × StepOut) :=
  if ((get_available_click_actions s.page_source).length : Int) ≤ action then
    .ok ({ s with first_step := false },
      { obs := stateObs { s with first_step := false },
        reward := 0.0, done := false, info := none })
  else
    match pyIndex (get_available_click_actions s.page_source) action with
    | none => .error .indexError
    | some u =>
      .ok ({ s with first_step := false, page_source := fetch u, cur_state := u },
        { obs :=
            stateObs { s with first_step := false, page_source := fetch u, cur_state := u },
          reward := 0.0, done := false, info := none })

/-- Python `c in s` for a single character. -/
def pyInChar (c : Char) (s : String) : Bool :=
  s.data.any (fun x => x = c)

/-- String concatenation is associative (on the underlying character
lists). -/
theorem strAppendAssoc (a b c : String) : a ++ b ++ c = a ++ (b ++ c) := by
  cases a; cases b; cases c
  simp [String.ext_iff]

/-- `pyInChar` over a concatenation. -/
theorem pyInChar_append (c : Char) (a b : String) :
    pyInChar c (a ++ b) = (pyInChar c a || pyInChar c b) := by
  cases a; cases b
  simp [pyInChar, String.data]

/-- `WebAgentDreamDOMEnv.add_query_parameters`: append `'&'` if the URL
already has a query string and `'?'` otherwise, then the `return_n` and
`num_random` parameters, then `seed` when `self.seed is not None`, then
`shuffle_products` (its guard `self.shuffle_products is not None` is always
true, the field being a `bool`; `int(b)` is 1 or 0). -/
def add_query_parameters (cfg : DOMConfig) (seed : Option Int) (url_string : String) :
    String :=
  let u := if pyInChar '?' url_string then url_string ++ "&" else url_string ++ "?"
  let u := u ++ ("return_n=" ++ toString cfg.return_n ++ "&num_random=" ++
    toString cfg.num_random)
  let u := u ++ (match seed with
    | some sd => "&seed=" ++ toString sd
    | none => "")
  let u := u ++ ("&shuffle_products=" ++ toString (if cfg.shuffle_products then 1 else 0))
  u

/-- Fuelled worker for Python `str.replace` (all occurrences, non-empty
pattern); one unit of fuel per input character suffices. -/
def replaceAllAux (pat sub : List Char) : Nat → List Char → List Char
  | 0, s => s
  | _, [] => []
  | fuel + 1, c :: rest =>
    if pat.isPrefixOf (c :: rest) ∧ pat ≠ [] then
      sub ++ replaceAllAux pat sub fuel ((c :: rest).drop pat.length)
    else c :: replaceAllAux pat sub fuel rest

/-- Python `s.replace(pat, sub)` for a non-empty pattern. -/
def pyReplace (s pat sub : String) : String :=
  String.mk (replaceAllAux pat.data sub.data s.data.length s.data)

/-- The session name chosen by `reset`: `f"fixed_{goal_id}"` when a goal id
is given, otherwise five random lowercase letters (the random draw is an
oracle argument). -/
def sessionName (goal_id : Option Int) (randomSession : String) : String :=
  match goal_id with
  | some g => "fixed_" ++ toString g
  | none => randomSession

/-- The URL `reset` fetches through the test client: the session URL with
query parameters added and `&episode_start=1` appended. -/
def resetFetchUrl (cfg : DOMConfig) (session : String) (seed : Option Int) : String :=
  add_query_parameters cfg seed ("http://localhost/" ++ session) ++ "&episode_start=1"

/-- The HTTP GET requests issued by one call to
`WebAgentDreamDOMEnv.reset`: exactly one, to `resetFetchUrl`. -/
def domResetRequests (cfg : DOMConfig) (session : String) (seed : Option Int) :
    List String :=
  [resetFetchUrl cfg session seed]

/-- `WebAgentDreamDOMEnv.reset`: pick the session, build the session URL
with query parameters, record `_cur_state` (the URL with the
`http://localhost` prefix removed, before `&episode_start=1` is appended),
fetch the page, and capture `instruction_text` and `best_products` from it;
any exception from those accessors propagates.  Returns the pair
`(state, None)`. -/
def domReset (fetch : String → String) (parse : String → Node)
    (jloads : String → Option Json) (cfg : DOMConfig) (goal_id : Option Int)
    (randomSession : String) (seed : Option Int) :
    Except PyExc (DOMState × (Obs × Option Unit)) :=
  match get_instruction_text parse
    (fetch (resetFetchUrl cfg (sessionName goal_id randomSession) seed)) with
  | .error e => .error e
  | .ok instr =>
    match get_best_products parse jloads
      (fetch (resetFetchUrl cfg (sessionName goal_id randomSession) seed)) with
    | .error e => .error e
    | .ok bp =>
      .ok ({ page_source := fetch (resetFetchUrl cfg (sessionName goal_id randomSession) seed)
             cur_state := pyReplace (add_query_parameters cfg seed
               ("http://localhost/" ++ sessionName goal_id randomSession))
               "http://localhost" ""
             first_step := true
             instruction_text := instr
             best_products := bp
             session := sessionName goal_id randomSession
             seed := seed },
        ({ html := fetch (resetFetchUrl cfg (sessionName goal_id randomSession) seed)
           instruction_text := instr
           best_products := bp }, none))

/-! ### The `WebAgentDreamEnv` (browser-driven) `step` -/

/-- Browser interactions performed by `WebAgentDreamEnv.step`: typing the
search query, scrolling, a plain `element.click()` attempt on clickable
`i`, the scripted JavaScript click fallback on clickable `i`, and the
console message for an invalid action. -/
inductive BEvent where
  | searchInput
  | scrollDown
  | scrollUp
  | tryClick (i : Nat)
  | jsClick (i : Nat)
  | printInvalid
  deriving DecidableEq, Repr

/-- Outcome of `element.click()` on one clickable, an oracle for the
browser's behaviour: succeed, raise `ElementNotInteractableException`, or
raise an exception of any other type. -/
inductive ClickOutcome where
  | ok
  | elementNotInteractable
  | otherExc
  deriving DecidableEq, Repr

/-- The `(reward, done, info)` part of the value `step` returns. -/
structure DreamStepOut where
  reward : Float
  done : Bool
  info : Option Unit

/-- The list position Python indexing resolves an in-range `int` index to. -/
def pyResolvedIndex (len : Nat) (i : Int) : Nat :=
  if 0 ≤ i then i.toNat else ((len : Int) + i).toNat

/-- `WebAgentDreamEnv.step`: actions 0–2 drive the search box and
scrolling, action 3 only sets `done`, an action with
`action - 4 < len(clickables)` clicks clickable `action - 4` (Python
indexing; `ElementNotInteractableException` — and only that type — is
caught and answered with exactly one scripted JavaScript click on the same
element, any other exception propagates), and anything else prints
`Invalid action. No action performed.`.  Returns reward `0.0` and info
`None`; `done` is true exactly for action 3. -/
def dreamStep (clickables : List ClickOutcome) (action : Int) :
    Except PyExc (List BEvent × DreamStepOut) :=
  if action = 0 then .ok ([.searchInput], ⟨0.0, false, none⟩)
  else if action = 1 then .ok ([.scrollDown], ⟨0.0, false, none⟩)
  else if action = 2 then .ok ([.scrollUp], ⟨0.0, false, none⟩)
  else if action = 3 then .ok ([], ⟨0.0, true, none⟩)
  else if action - 4 < (clickables.length : Int) then
    match pyIndex clickables (action - 4) with
    | none => .error .indexError
    | some outcome =>
      match outcome with
      | .ok =>
        .ok ([.tryClick (pyResolvedIndex clickables.length (action - 4))],
          ⟨0.0, false, none⟩)
      | .elementNotInteractable =>
        .ok ([.tryClick (pyResolvedIndex clickables.length (action - 4)),
          .jsClick (pyResolvedIndex clickables.length (action - 4))],
          ⟨0.0, false, none⟩)
      | .otherExc => .error .otherBrowserExc
  else .ok ([.printInvalid], ⟨0.0, false, none⟩)

/-! ### C1: which actions are ignored by `step` -/

/-- A sample page whose only extracted click URL is `/abc`. -/
def onlyLinkPage : String := "<form action=\"/abc\">"

/-- A DOM-environment state sitting on `onlyLinkPage`. -/
def onlyLinkState : DOMState :=
  { page_source := onlyLinkPage, cur_state := "/s", first_step := false,
    instruction_text := "instr", best_products := .null, session := "s", seed := none }

/-- C1 as stated is false: the action index `-1` is outside
`[0, len(urls))` (here `len(urls) = 1`), yet `WebAgentDreamDOMEnv.step`
does not ignore it — Python indexing wraps `urls[-1]` to the last URL, the
page is fetched and `page_source` changes. -/
theorem dom_step_negative_action_counterexample :
    (domStep (fun _ => "NEWPAGE") onlyLinkState (-1)).map (fun r => r.1.page_source) =
      .ok "NEWPAGE" ∧
    onlyLinkState.page_source ≠ "NEWPAGE" ∧
    get_available_click_actions onlyLinkState.page_source = ["/abc"] := by
  refine ⟨rfl, ?_, rfl⟩
  decide

/-- C1 (amended): in `WebAgentDreamDOMEnv.step` every action index
`>= len(urls)` (not: every index outside `[0, len(urls))`) is ignored — the
page state (`page_source`, `_cur_state`) is unchanged and the unchanged
observation is returned (only `first_step` is cleared, unconditionally);
in `WebAgentDreamEnv.step` every action index `>= 4 + len(clickables)`
performs no browser interaction beyond the console message. -/
theorem step_invalid_action_ignored (fetch : String → String) (s : DOMState)
    (clickables : List ClickOutcome) (action : Int) :
    (((get_available_click_actions s.page_source).length : Int) ≤ action →
      domStep fetch s action =
        .ok ({ s with first_step := false },
          { obs := stateObs { s with first_step := false },
            reward := 0.0, done := false, info := none })) ∧
    (4 + (clickables.length : Int) ≤ action →
      dreamStep clickables action = .ok ([.printInvalid], ⟨0.0, false, none⟩)) := by
  constructor
  · intro h
    unfold domStep
    rw [if_pos h]
  · intro h
    have h0 : ¬ action = 0 := by omega
    have h1 : ¬ action = 1 := by omega
    have h2 : ¬ action = 2 := by omega
    have h3 : ¬ action = 3 := by omega
    have h4 : ¬ (action - 4 < (clickables.length : Int)) := by omega
    unfold dreamStep
    rw [if_neg h0, if_neg h1, if_neg h2, if_neg h3, if_neg h4]

/-- Witness for `step_invalid_action_ignored`: action `99` on
`onlyLinkState` (one URL) and on an empty clickable list. -/
theorem step_invalid_action_ignored_witness :
    domStep (fun _ => "NEWPAGE") onlyLinkState 99 =
      .ok ({ onlyLinkState with first_step := false },
        { obs := stateObs { onlyLinkState with first_step := false },
          reward := 0.0, done := false, info := none }) ∧
    dreamStep [] 99 = .ok ([.printInvalid], ⟨0.0, false, none⟩) := by
  have h := step_invalid_action_ignored (fun _ => "NEWPAGE") onlyLinkState [] 99
  exact ⟨h.1 (by decide), h.2 (by decide)⟩

/-! ### C6: the click retry in `WebAgentDreamEnv.step` -/

/-- C6: for every valid click action (`4 ≤ action < 4 + len(clickables)`),
a click that raises `ElementNotInteractableException` — and only that
exception type — is retried exactly once via a JavaScript click on the same
element; a click raising any other exception type propagates uncaught. -/
theorem dream_step_click_retry (clickables : List ClickOutcome) (action : Int)
    (hge : 4 ≤ action) (hlt : action < 4 + (clickables.length : Int)) :
    (clickables.get? (action - 4).toNat = some .ok →
      dreamStep clickables action =
        .ok ([.tryClick (action - 4).toNat], ⟨0.0, false, none⟩)) ∧
    (clickables.get? (action - 4).toNat = some .elementNotInteractable →
      dreamStep clickables action =
        .ok ([.tryClick (action - 4).toNat, .jsClick (action - 4).toNat],
          ⟨0.0, false, none⟩)) ∧
    (clickables.get? (action - 4).toNat = some .otherExc →
      dreamStep clickables action = .error .otherBrowserExc) := by
  have h0 : ¬ action = 0 := by omega
  have h1 : ¬ action = 1 := by omega
  have h2 : ¬ action = 2 := by omega
  have h3 : ¬ action = 3 := by omega
  have h4 : action - 4 < (clickables.length : Int) := by omega
  have hidx : pyIndex clickables (action - 4) = clickables.get? (action - 4).toNat := by
    unfold pyIndex
    rw [if_pos (by omega)]
  have hres : pyResolvedIndex clickables.length (action - 4) = (action - 4).toNat := by
    unfold pyResolvedIndex
    rw [if_pos (by omega)]
  refine ⟨?_, ?_, ?_⟩ <;> intro hc <;>
    · unfold dreamStep
      rw [if_neg h0, if_neg h1, if_neg h2, if_neg h3, if_pos h4, hidx, hc, hres]

/-- Witness for `dream_step_click_retry`: a single clickable that raises
`ElementNotInteractableException`, clicked by action `4`: one plain click
attempt and exactly one JavaScript fallback click. -/
theorem dream_step_click_retry_witness :
    dreamStep [.elementNotInteractable] 4 =
      .ok ([.tryClick 0, .jsClick 0], ⟨0.0, false, none⟩) := by
  have h := dream_step_click_retry [.elementNotInteractable] 4 (by decide) (by decide)
  exact h.2.1 (by decide)

/-! ### C8: `step` never recomputes the reset-captured observation fields -/

/-- C8: whatever the action, a successful `WebAgentDreamDOMEnv.step` leaves
`instruction_text` and `best_products` (both in the stored state and in the
returned observation) exactly as captured by the most recent `reset`; it
updates only `page_source`, `_cur_state` and `first_step` (session and seed
are untouched too). -/
theorem dom_step_preserves_reset_fields (fetch : String → String) (s : DOMState)
    (action : Int) (r : DOMState × StepOut) (h : domStep fetch s action = .ok r) :
    r.1.instruction_text = s.instruction_text ∧
    r.1.best_products = s.best_products ∧
    r.2.obs.instruction_text = s.instruction_text ∧
    r.2.obs.best_products = s.best_products ∧
    r.1.session = s.session ∧ r.1.seed = s.seed := by
  unfold domStep at h
  split at h
  · simp only [Except.ok.injEq] at h
    subst h
    exact ⟨rfl, rfl, rfl, rfl, rfl, rfl⟩
  · split at h
    · exact absurd h (by simp)
    · simp only [Except.ok.injEq] at h
      subst h
      exact ⟨rfl, rfl, rfl, rfl, rfl, rfl⟩

/-- The result of stepping `onlyLinkState` with action `0` (a valid click
on `/abc`). -/
def onlyLinkStepResult : DOMState × StepOut :=
  ({ onlyLinkState with page_source := "NEWPAGE", cur_state := "/abc" },
    { obs := stateObs { onlyLinkState with page_source := "NEWPAGE", cur_state := "/abc" },
      reward := 0.0, done := false, info := none })

/-- Witness for `dom_step_preserves_reset_fields` at a concrete valid click. -/
theorem dom_step_preserves_reset_fields_witness :
    onlyLinkStepResult.1.instruction_text = onlyLinkState.instruction_text ∧
    onlyLinkStepResult.1.best_products = onlyLinkState.best_products ∧
    onlyLinkStepResult.2.obs.instruction_text = onlyLinkState.instruction_text ∧
    onlyLinkStepResult.2.obs.best_products = onlyLinkState.best_products ∧
    onlyLinkStepResult.1.session = onlyLinkState.session ∧
    onlyLinkStepResult.1.seed = onlyLinkState.seed :=
  dom_step_preserves_reset_fields (fun _ => "NEWPAGE") onlyLinkState 0
    onlyLinkStepResult rfl

/-! ### C9: reward, info and done -/

/-- C9: every `step` returns reward exactly `0.0` and info `None`
regardless of the action and the page (`get_reward` is never invoked);
`done` is always `False` in `WebAgentDreamDOMEnv`, and in
`WebAgentDreamEnv` it is `True` exactly when the action is `3`. -/
theorem step_reward_info_done (fetch : String → String) (s : DOMState)
    (clickables : List ClickOutcome) (action : Int) :
    (∀ r : DOMState × StepOut, domStep fetch s action = .ok r →
      r.2.reward = 0.0 ∧ r.2.info = none ∧ r.2.done = false) ∧
    (∀ r : List BEvent × DreamStepOut, dreamStep clickables action = .ok r →
      r.2.reward = 0.0 ∧ r.2.info = none ∧ (r.2.done = true ↔ action = 3)) := by
  constructor
  · intro r h
    unfold domStep at h
    split at h
    · simp only [Except.ok.injEq] at h
      subst h
      exact ⟨rfl, rfl, rfl⟩
    · split at h
      · exact absurd h (by simp)
      · simp only [Except.ok.injEq] at h
        subst h
        exact ⟨rfl, rfl, rfl⟩
  · intro r h
    unfold dreamStep at h
    by_cases ha0 : action = 0
    · rw [if_pos ha0] at h
      simp only [Except.ok.injEq] at h
      subst h
      exact ⟨rfl, rfl, by rw [ha0]; decide⟩
    rw [if_neg ha0] at h
    by_cases ha1 : action = 1
    · rw [if_pos ha1] at h
      simp only [Except.ok.injEq] at h
      subst h
      exact ⟨rfl, rfl, by rw [ha1]; decide⟩
    rw [if_neg ha1] at h
    by_cases ha2 : action = 2
    · rw [if_pos ha2] at h
      simp only [Except.ok.injEq] at h
      subst h
      exact ⟨rfl, rfl, by rw [ha2]; decide⟩
    rw [if_neg ha2] at h
    by_cases ha3 : action = 3
    · rw [if_pos ha3] at h
      simp only [Except.ok.injEq] at h
      subst h
      exact ⟨rfl, rfl, by simp [ha3]⟩
    rw [if_neg ha3] at h
    by_cases hlt : action - 4 < (clickables.length : Int)
    · rw [if_pos hlt] at h
      cases hpi : pyIndex clickables (action - 4) with
      | none =>
        rw [hpi] at h
        exact absurd h (by simp)
      | some outcome =>
        rw [hpi] at h
        cases outcome with
        | ok =>
          simp only [Except.ok.injEq] at h
          subst h
          exact ⟨rfl, rfl, by simp [ha3]⟩
        | elementNotInteractable =>
          simp only [Except.ok.injEq] at h
          subst h
          exact ⟨rfl, rfl, by simp [ha3]⟩
        | otherExc =>
          exact absurd h (by simp)
    · rw [if_neg hlt] at h
      simp only [Except.ok.injEq] at h
      subst h
      exact ⟨rfl, rfl, by simp [ha3]⟩

/-- Witness for `step_reward_info_done`: a step of `onlyLinkState` with
action `0`, and a dream-environment step with action `0`. -/
theorem step_reward_info_done_witness :
    (onlyLinkStepResult.2.reward = 0.0 ∧ onlyLinkStepResult.2.info = none ∧
      onlyLinkStepResult.2.done = false) ∧
    ((([BEvent.searchInput], ⟨0.0, false, none⟩) : List BEvent × DreamStepOut).2.reward = 0.0 ∧
      (([BEvent.searchInput], ⟨0.0, false, none⟩) : List BEvent × DreamStepOut).2.info = none ∧
      ((([BEvent.searchInput], ⟨0.0, false, none⟩) :
        List BEvent × DreamStepOut).2.done = true ↔ (0 : Int) = 3)) := by
  have h := step_reward_info_done (fun _ => "NEWPAGE") onlyLinkState [] 0
  exact ⟨h.1 onlyLinkStepResult rfl, h.2 ([BEvent.searchInput], ⟨0.0, false, none⟩) rfl⟩

/-! ### C3: the HTTP GET issued by `reset` -/

/-- C3: one call to `reset` issues exactly one HTTP GET, to
`/<session>` with query string
`return_n=<return_n>&num_random=<num_random>[&seed=<seed>]&shuffle_products=<0|1>&episode_start=1`
(`seed` present whenever the seed argument is not `None`); and whenever the
URL given to `add_query_parameters` already contains `'?'`, the parameters
are appended with `'&'` instead. -/
theorem dom_reset_get_spec (cfg : DOMConfig) (session : String) (seed : Option Int)
    (h : pyInChar '?' session = false) :
    domResetRequests cfg session seed =
      ["http://localhost/" ++ session ++ "?" ++
        ("return_n=" ++ toString cfg.return_n ++ "&num_random=" ++
          toString cfg.num_random) ++
        (match seed with
          | some sd => "&seed=" ++ toString sd
          | none => "") ++
        ("&shuffle_products=" ++ toString (if cfg.shuffle_products then 1 else 0)) ++
        "&episode_start=1"] ∧
    ∀ url : String, pyInChar '?' url = true →
      add_query_parameters cfg seed url =
        url ++ "&" ++
        ("return_n=" ++ toString cfg.return_n ++ "&num_random=" ++
          toString cfg.num_random) ++
        (match seed with
          | some sd => "&seed=" ++ toString sd
          | none => "") ++
        ("&shuffle_products=" ++ toString (if cfg.shuffle_products then 1 else 0)) := by
  have hbase : pyInChar '?' ("http://localhost/" ++ session) = false := by
    rw [pyInChar_append, h]
    decide
  constructor
  · simp only [domResetRequests, resetFetchUrl, add_query_parameters, hbase,
      Bool.false_eq_true, if_false, strAppendAssoc]
  · intro url hurl
    simp only [add_query_parameters, hurl, if_true, strAppendAssoc]

/-- Witness for `dom_reset_get_spec` at `return_n=3`, `num_random=0`,
`shuffle_products=False`, session `"abcde"`, seed `0`, and (for the
`'&'`-branch) the already-parameterised URL `"/x?a=1"`. -/
theorem dom_reset_get_spec_witness :
    domResetRequests ⟨3, 0, false⟩ "abcde" (some 0) =
      ["http://localhost/" ++ "abcde" ++ "?" ++
        ("return_n=" ++ toString (3 : Nat) ++ "&num_random=" ++ toString (0 : Nat)) ++
        ("&seed=" ++ toString (0 : Int)) ++
        ("&shuffle_products=" ++ toString (0 : Nat)) ++
        "&episode_start=1"] ∧
    add_query_parameters ⟨3, 0, false⟩ (some 0) "/x?a=1" =
      "/x?a=1" ++ "&" ++
        ("return_n=" ++ toString (3 : Nat) ++ "&num_random=" ++ toString (0 : Nat)) ++
        ("&seed=" ++ toString (0 : Int)) ++
        ("&shuffle_products=" ++ toString (0 : Nat)) := by
  have h := dom_reset_get_spec ⟨3, 0, false⟩ "abcde" (some 0) (by decide)
  exact ⟨h.1, h.2 "/x?a=1" (by decide)⟩

/-! ### C4: `reset` returns `(observation, info)` with the page's
instruction text -/

/-- C4: `reset` returns a pair `(observation, info)` (and `step` a 4-tuple
`(observation, reward, done, info)` — both by the shape of
`DOMState × (Obs × Option Unit)` and `StepOut`); provided the fetched page
parses to a tree whose `instruction-text` element's `h4` heading holds a
non-empty string `t`, a successful `reset` returns an observation whose
`instruction_text` entry equals `t` and is non-empty. -/
theorem dom_reset_instruction_text (fetch : String → String) (parse : String → Node)
    (jloads : String → Option Json) (cfg : DOMConfig) (goal_id : Option Int)
    (randomSession : String) (seed : Option Int) (e h4node : Node) (t : String)
    (r : DOMState × (Obs × Option Unit))
    (hfind : findById "instruction-text"
      (parse (fetch (resetFetchUrl cfg (sessionName goal_id randomSession) seed))) =
      some e)
    (hh4 : childTag "h4" e = some h4node)
    (ht : nodeText h4node = t)
    (hne : t ≠ "")
    (hr : domReset fetch parse jloads cfg goal_id randomSession seed = .ok r) :
    r.2.1.instruction_text = t ∧ r.2.1.instruction_text ≠ "" ∧
    r.1.instruction_text = t := by
  have hit : get_instruction_text parse
      (fetch (resetFetchUrl cfg (sessionName goal_id randomSession) seed)) = .ok t := by
    unfold get_instruction_text
    rw [hfind]
    dsimp only
    rw [hh4]
    dsimp only
    rw [ht]
  unfold domReset at hr
  rw [hit] at hr
  cases hbp : get_best_products parse jloads
      (fetch (resetFetchUrl cfg (sessionName goal_id randomSession) seed)) with
  | error e2 =>
    rw [hbp] at hr
    simp at hr
  | ok bp =>
    rw [hbp] at hr
    simp only [Except.ok.injEq] at hr
    subst hr
    exact ⟨rfl, hne, rfl⟩

/-- A sample parsed page containing the two elements `reset` reads. -/
def samplePageTree : Node :=
  .elem "html" [] [
    .elem "div" [("id", "instruction-text")] [.elem "h4" [] [.text "Buy a mug"]],
    .elem "div" [("id", "best-products")] [.elem "h4" [] [.text "[]"]]]

/-- The state a successful `reset` against `samplePageTree` produces
(config `⟨3, 0, false⟩`, session `"abcde"`, seed `0`, the fetch oracle
returning the literal page `"PAGE"`). -/
def sampleResetState : DOMState :=
  { page_source := "PAGE"
    cur_state := "/abcde?return_n=3&num_random=0&seed=0&shuffle_products=0"
    first_step := true
    instruction_text := "Buy a mug"
    best_products := .arr []
    session := "abcde"
    seed := some 0 }

/-- Witness for `dom_reset_instruction_text` against `samplePageTree`. -/
theorem dom_reset_instruction_text_witness :
    (sampleResetState, (stateObs sampleResetState, (none : Option Unit))).2.1.instruction_text
      = "Buy a mug" ∧
    (sampleResetState, (stateObs sampleResetState, (none : Option Unit))).2.1.instruction_text
      ≠ "" ∧
    (sampleResetState, (stateObs sampleResetState, (none : Option Unit))).1.instruction_text
      = "Buy a mug" :=
  dom_reset_instruction_text (fun _ => "PAGE") (fun _ => samplePageTree)
    (fun _ => some (.arr [])) ⟨3, 0, false⟩ none "abcde" (some 0)
    (.elem "div" [("id", "instruction-text")] [.elem "h4" [] [.text "Buy a mug"]])
    (.elem "h4" [] [.text "Buy a mug"]) "Buy a mug"
    (sampleResetState, (stateObs sampleResetState, none))
    rfl rfl rfl (by decide) rfl

/-! ### C5: missing page elements raise out of the accessors and `reset` -/

/-- C5: when the current page has no element with id `instruction-text`
(resp. `best-products`), `get_instruction_text` (resp. `get_best_products`)
raises `AttributeError` from the attribute access on the `None` result of
`find` instead of returning a default; `reset`, which calls both, does not
catch it. -/
theorem missing_element_raises (fetch : String → String) (parse : String → Node)
    (jloads : String → Option Json) (cfg : DOMConfig) (goal_id : Option Int)
    (randomSession : String) (seed : Option Int) (page : String) :
    (findById "instruction-text" (parse page) = none →
      get_instruction_text parse page = .error .attributeError) ∧
    (findById "best-products" (parse page) = none →
      get_best_products parse jloads page = .error .attributeError) ∧
    (findById "instruction-text"
        (parse (fetch (resetFetchUrl cfg (sessionName goal_id randomSession) seed))) =
        none →
      domReset fetch parse jloads cfg goal_id randomSession seed =
        .error .attributeError) := by
  refine ⟨?_, ?_, ?_⟩
  · intro hnone
    unfold get_instruction_text
    rw [hnone]
  · intro hnone
    unfold get_best_products
    rw [hnone]
  · intro hnone
    unfold domReset
    have hit : get_instruction_text parse
        (fetch (resetFetchUrl cfg (sessionName goal_id randomSession) seed)) =
        .error .attributeError := by
      unfold get_instruction_text
      rw [hnone]
    rw [hit]

/-- Witness for `missing_element_raises`: a parse oracle producing a page
with neither element. -/
theorem missing_element_raises_witness :
    get_instruction_text (fun _ => Node.elem "html" [] []) "PAGE" =
      .error .attributeError ∧
    get_best_products (fun _ => Node.elem "html" [] []) (fun _ => some .null) "PAGE" =
      .error .attributeError ∧
    domReset (fun _ => "PAGE") (fun _ => Node.elem "html" [] []) (fun _ => some .null)
      ⟨3, 0, false⟩ none "abcde" (some 0) = .error .attributeError := by
  have h := missing_element_raises (fun _ => "PAGE") (fun _ => Node.elem "html" [] [])
    (fun _ => some .null) ⟨3, 0, false⟩ none "abcde" (some 0) "PAGE"
  exact ⟨h.1 rfl, h.2.1 rfl, h.2.2 rfl⟩

/-! ### C7: the class-level process singletons of `WebAgentDreamDOMEnv` -/

/-- The class-level attributes guarding process startup:
whether `_app_process` / `_browser` are set (not `None`). -/
structure ClassState where
  app_process : Bool
  browser : Bool
  deriving DecidableEq, Repr

/-- A process spawned during construction: the Flask app subprocess, or one
`Chrome(executable_path=path)` browser-driver process. -/
inductive PEvent where
  | spawnApp
  | spawnBrowser (path : String)
  deriving DecidableEq, Repr

/-- Is this event an app-subprocess start? -/
def isAppSpawn : PEvent → Bool
  | .spawnApp => true
  | _ => false

/-- Is this event a browser-driver start? -/
def isBrowserSpawn : PEvent → Bool
  | .spawnBrowser _ => true
  | _ => false

/-- One `WebAgentDreamDOMEnv.__init__`: start the app subprocess if
`_app_process is None`; then, if `_browser is None`, loop over every file
prefixed `chromedriver` (the `binaries` listing oracle) and try
`Chrome(executable_path=binary_path)` for each — every successful launch
(per the `chromeOk` oracle) starts a browser process and overwrites
`_browser`, failures are swallowed by the bare `except: pass`, and the loop
has no `break`; if no launch succeeded, raise.  Returns the new class
state, the spawned processes in order, and whether `__init__` completed. -/
def domInit (chromeOk : String → Bool) (binaries : List String) (cs : ClassState) :
    ClassState × List PEvent × Bool :=
  let appPart : ClassState × List PEvent :=
    if cs.app_process then (cs, [])
    else ({ cs with app_process := true }, [.spawnApp])
  if appPart.1.browser then (appPart.1, appPart.2, true)
  else
    match (binaries.filter chromeOk).map PEvent.spawnBrowser with
    | [] => (appPart.1, appPart.2, false)
    | started =>
      ({ appPart.1 with browser := true }, appPart.2 ++ started, true)

/-- A sequence of constructions in one process, each with its own directory
listing and launch-outcome oracle, threading the class-level state. -/
def runInits (inputs : List ((String → Bool) × List String)) (cs : ClassState) :
    ClassState × List PEvent :=
  match inputs with
  | [] => (cs, [])
  | (chromeOk, binaries) :: rest =>
    ((runInits rest (domInit chromeOk binaries cs).1).1,
      (domInit chromeOk binaries cs).2.1 ++
        (runInits rest (domInit chromeOk binaries cs).1).2)

/-- C7 fails as stated: a single first construction that finds two
`chromedriver` binaries, both of which launch, starts two browser-driver
processes (the first one is leaked, `_browser` keeps the last). -/
theorem browser_singleton_counterexample :
    ¬ ((runInits [(fun _ => true, ["chromedriver", "chromedriver2"])]
        ⟨false, false⟩).2.countP isBrowserSpawn ≤ 1) := by
  decide

/-- After any construction the app guard is set. -/
theorem domInit_app_set (chromeOk : String → Bool) (binaries : List String)
    (cs : ClassState) : ((domInit chromeOk binaries cs).1).app_process = true := by
  unfold domInit
  by_cases ha : cs.app_process <;> by_cases hb : cs.browser <;>
    simp [ha, hb] <;>
    cases hm : (binaries.filter chromeOk).map PEvent.spawnBrowser <;> simp [ha, hb]

/-- A construction with the app guard already set spawns no app process. -/
theorem domInit_app_guarded (chromeOk : String → Bool) (binaries : List String)
    (cs : ClassState) (h : cs.app_process = true) :
    ((domInit chromeOk binaries cs).2.1).countP isAppSpawn = 0 := by
  unfold domInit
  by_cases hb : cs.browser
  · simp [h, hb]
  · simp only [h, hb, if_true, if_false, Bool.false_eq_true]
    cases hm : (binaries.filter chromeOk).map PEvent.spawnBrowser with
    | nil => simp
    | cons p ps =>
      simp only [List.countP_append]
      have : (List.map PEvent.spawnBrowser (binaries.filter chromeOk)).countP isAppSpawn
          = 0 := by
        simp [List.countP_eq_zero, isAppSpawn]
      rw [hm] at this
      simp [this]

/-- Any construction spawns at most one app process. -/
theorem domInit_app_le_one (chromeOk : String → Bool) (binaries : List String)
    (cs : ClassState) : ((domInit chromeOk binaries cs).2.1).countP isAppSpawn ≤ 1 := by
  have hmap : ∀ l : List String,
      (l.map PEvent.spawnBrowser).countP isAppSpawn = 0 := by
    intro l
    simp [List.countP_eq_zero, isAppSpawn]
  unfold domInit
  by_cases ha : cs.app_process <;> by_cases hb : cs.browser <;>
      simp only [ha, hb, if_true, if_false, Bool.false_eq_true, Bool.true_eq_false]
  · simp
  · cases hm : (binaries.filter chromeOk).map PEvent.spawnBrowser with
    | nil => simp
    | cons p ps =>
      have h0 := hmap (binaries.filter chromeOk)
      rw [hm] at h0
      simp [List.countP_append, h0]
  · simp [isAppSpawn]
  · cases hm : (binaries.filter chromeOk).map PEvent.spawnBrowser with
    | nil => simp [isAppSpawn]
    | cons p ps =>
      have h0 := hmap (binaries.filter chromeOk)
      rw [hm] at h0
      simp [List.countP_append, List.countP_cons, h0, isAppSpawn]

/-- Across a whole construction sequence, app spawns stay bounded by the
guard state. -/
theorem runInits_app_spawns (inputs : List ((String → Bool) × List String))
    (cs : ClassState) :
    (runInits inputs cs).2.countP isAppSpawn ≤ if cs.app_process then 0 else 1 := by
  induction inputs generalizing cs with
  | nil => simp [runInits]
  | cons hd rest ih =>
    obtain ⟨chromeOk, binaries⟩ := hd
    simp only [runInits, List.countP_append]
    have h1 := ih ((domInit chromeOk binaries cs).1)
    rw [domInit_app_set chromeOk binaries cs] at h1
    simp only [if_true] at h1
    by_cases ha : cs.app_process
    · have h2 := domInit_app_guarded chromeOk binaries cs ha
      rw [ha]
      simp only [if_true]
      omega
    · have h2 := domInit_app_le_one chromeOk binaries cs
      rw [Bool.not_eq_true] at ha
      rw [ha]
      simp only [Bool.false_eq_true, if_false]
      omega

/-- Counting browser spawns over the mapped launch events. -/
theorem countP_map_spawnBrowser (l : List String) :
    (l.map PEvent.spawnBrowser).countP isBrowserSpawn = l.length := by
  induction l with
  | nil => simp
  | cons x xs ih => simp [List.countP_cons, isBrowserSpawn, ih]

/-- C7 (amended): across every construction sequence at most one app
subprocess is ever started, and the `_browser` guard keeps any construction
that sees it set from starting browser processes; but a construction that
runs with `_browser is None` starts one browser-driver process per
`chromedriver` binary that launches successfully (the loop has no `break`),
so "at most one browser process ever" holds only when at most one binary
launches. -/
theorem process_singletons_amended (inputs : List ((String → Bool) × List String)) :
    (runInits inputs ⟨false, false⟩).2.countP isAppSpawn ≤ 1 ∧
    (∀ (chromeOk : String → Bool) (binaries : List String) (cs : ClassState),
      cs.browser = true →
        ((domInit chromeOk binaries cs).2.1).countP isBrowserSpawn = 0) ∧
    (∀ (chromeOk : String → Bool) (binaries : List String) (cs : ClassState),
      cs.browser = false →
        ((domInit chromeOk binaries cs).2.1).countP isBrowserSpawn =
          (binaries.filter chromeOk).length) := by
  refine ⟨?_, ?_, ?_⟩
  · have h := runInits_app_spawns inputs ⟨false, false⟩
    simpa using h
  · intro chromeOk binaries cs hb
    unfold domInit
    by_cases ha : cs.app_process <;> simp [ha, hb, isBrowserSpawn]
  · intro chromeOk binaries cs hb
    unfold domInit
    by_cases ha : cs.app_process <;>
        simp only [ha, hb, if_true, if_false, Bool.false_eq_true, Bool.true_eq_false] <;>
        cases hm : (binaries.filter chromeOk).map PEvent.spawnBrowser with
    | nil =>
      have hlen : (binaries.filter chromeOk).length = 0 := by
        have := congrArg List.length hm
        simpa using this
      simp [hlen, isBrowserSpawn]
    | cons p ps =>
      have h0 := countP_map_spawnBrowser (binaries.filter chromeOk)
      rw [hm] at h0
      simp [List.countP_append, List.countP_cons, h0, isBrowserSpawn]

/-- Witness for `process_singletons_amended`: one construction with one
working binary; a guarded construction starts no browser; an unguarded one
starts one per working binary. -/
theorem process_singletons_amended_witness :
    (runInits [(fun _ => true, ["chromedriver"])] ⟨false, false⟩).2.countP isAppSpawn ≤ 1 ∧
    ((domInit (fun _ => true) ["chromedriver"] ⟨true, true⟩).2.1).countP isBrowserSpawn
      = 0 ∧
    ((domInit (fun _ => true) ["chromedriver"] ⟨true, false⟩).2.1).countP isBrowserSpawn
      = (["chromedriver"].filter (fun _ => true)).length := by
  have h := process_singletons_amended [(fun _ => true, ["chromedriver"])]
  exact ⟨h.1, h.2.1 (fun _ => true) ["chromedriver"] ⟨true, true⟩ rfl,
    h.2.2 (fun _ => true) ["chromedriver"] ⟨true, false⟩ rfl⟩
